import Mathlib

/-!
Verification development for the FincasYa WhatsApp conversation and catalog
dispatch engine (Convex backend).  The TypeScript sources under `convex/`
are shallowly embedded: strings are lists of characters, the document store
is a record of lists kept in creation order, fallible external collaborators
are parameters of an environment record, and scheduled background work is
returned as an explicit job list.
-/

namespace FY

/-- Strings are modelled as lists of characters (JS strings). -/
abbrev Str := List Char

/-- Decidable equality for `Except`, used to evaluate concrete runs. -/
instance {ε α : Type} [DecidableEq ε] [DecidableEq α] : DecidableEq (Except ε α)
  | .error a, .error b =>
    if h : a = b then .isTrue (by rw [h]) else .isFalse (by intro hc; cases hc; exact h rfl)
  | .error _, .ok _ => .isFalse (by intro h; cases h)
  | .ok _, .error _ => .isFalse (by intro h; cases h)
  | .ok a, .ok b =>
    if h : a = b then .isTrue (by rw [h]) else .isFalse (by intro hc; cases hc; exact h rfl)

/-- Characters matched by the JS whitespace class in the source regexes and
by `String.prototype.trim`, restricted to the ASCII range that the inputs of
this system use. -/
def isSpaceChar (c : Char) : Bool :=
  c == ' ' || c == '\t' || c == '\n' || c == '\r' || c.toNat == 11 || c.toNat == 12

/-- Embedding of `String.prototype.trim`. -/
def jsTrim (s : Str) : Str :=
  ((s.dropWhile isSpaceChar).reverse.dropWhile isSpaceChar).reverse

/-- Embedding of `String.prototype.toLowerCase` on one character, on the
alphabet this system uses (ASCII plus the Spanish accented letters that occur
in the sources). -/
def toLowerChar (c : Char) : Char :=
  if 'A' ≤ c && c ≤ 'Z' then Char.ofNat (c.toNat + 32)
  else if c == 'Á' then 'á'
  else if c == 'É' then 'é'
  else if c == 'Í' then 'í'
  else if c == 'Ó' then 'ó'
  else if c == 'Ú' then 'ú'
  else if c == 'Ñ' then 'ñ'
  else if c == 'Ü' then 'ü'
  else c

/-- Embedding of `String.prototype.toLowerCase`. -/
def toLowerStr (s : Str) : Str := s.map toLowerChar

/-- Does `hay` start with `needle`? -/
def beginsWith : Str → Str → Bool
  | [], _ => true
  | _ :: _, [] => false
  | a :: as, b :: bs => a == b && beginsWith as bs

/-- Embedding of `String.prototype.includes`: `needle` occurs as a contiguous
substring of `hay`. -/
def containsSub (hay needle : Str) : Bool :=
  if beginsWith needle hay then true
  else
    match hay with
    | [] => false
    | _ :: t => containsSub t needle

/-- Helper for `collapseWs`: the flag records whether the previous character
was whitespace already replaced by a single space. -/
def collapseWsAux : Bool → Str → Str
  | _, [] => []
  | prevWs, c :: t =>
    if isSpaceChar c then
      if prevWs then collapseWsAux true t else ' ' :: collapseWsAux true t
    else c :: collapseWsAux false t

/-- Embedding of `.replace(/\s+/g, " ")`: every maximal whitespace run becomes
a single space. -/
def collapseWs (s : Str) : Str := collapseWsAux false s

/-- ASCII digit test (the `\d` class). -/
def isDigitChar (c : Char) : Bool := '0' ≤ c && c ≤ '9'

/-- Embedding of `parseInt` on a string of decimal digits. -/
def digitsToNat (s : Str) : Nat :=
  s.foldl (fun acc c => acc * 10 + (c.toNat - 48)) 0

/-!
A small backtracking regular-expression engine, enough to embed the
JavaScript regexes of `convex/ycloud.ts` with JS semantics: leftmost match,
left-biased alternation, greedy and lazy repetition, and numbered capture
groups.
-/

/-- Regex abstract syntax.  `cset` is a character class, `starG`/`starL` are
greedy and lazy Kleene star, `optG` is a greedy `?`, `eos` is the `$` anchor,
and `grp` is a numbered capture group. -/
inductive RE where
  | eps
  | cset (p : Char → Bool)
  | cat (a b : RE)
  | alt (a b : RE)
  | starG (r : RE)
  | starL (r : RE)
  | optG (r : RE)
  | eos
  | grp (i : Nat) (r : RE)

/-- Captured groups, most recent first. -/
abbrev Caps := List (Nat × Str)

/-- Backtracking matcher in continuation-passing style.  `fuel` bounds the
depth of the search and is always chosen large enough for the concrete
regexes below; the continuation receives the remaining input and captures. -/
def reM (fuel : Nat) (r : RE) (s : Str) (caps : Caps)
    (k : Str → Caps → Option Caps) : Option Caps :=
  match fuel with
  | 0 => none
  | Nat.succ f =>
    match r with
    | .eps => k s caps
    | .cset p =>
      match s with
      | [] => none
      | c :: t => if p c then k t caps else none
    | .cat a b => reM f a s caps (fun s1 c1 => reM f b s1 c1 k)
    | .alt a b =>
      match reM f a s caps k with
      | some res => some res
      | none => reM f b s caps k
    | .optG a =>
      match reM f a s caps k with
      | some res => some res
      | none => k s caps
    | .starG a =>
      match reM f a s caps (fun s1 c1 => reM f (.starG a) s1 c1 k) with
      | some res => some res
      | none => k s caps
    | .starL a =>
      match k s caps with
      | some res => some res
      | none => reM f a s caps (fun s1 c1 => reM f (.starL a) s1 c1 k)
    | .eos =>
      match s with
      | [] => k s caps
      | _ :: _ => none
    | .grp i a =>
      reM f a s caps (fun s1 c1 => k s1 ((i, s.take (s.length - s1.length)) :: c1))

/-- Try the regex at each start position from left to right (the scan done by
`String.prototype.match` for an unanchored regex). -/
def reSearchAux (fuel : Nat) (r : RE) : Str → Option Caps
  | [] => reM fuel r [] [] (fun _ c => some c)
  | c :: t =>
    match reM fuel r (c :: t) [] (fun _ cp => some cp) with
    | some caps => some caps
    | none => reSearchAux fuel r t

/-- Fuel bound used for all searches; generous for the regexes below, whose
backtracking depth is linear in the input length. -/
def reFuel (s : Str) : Nat := 200 * (s.length + 2)

/-- Leftmost match of `r` in `s`, returning the capture list. -/
def reSearch (r : RE) (s : Str) : Option Caps := reSearchAux (reFuel s) r s

/-- Look up capture group `i` (empty when absent; every group used below is
mandatory inside its pattern). -/
def capOf (caps : Caps) (i : Nat) : Str :=
  match caps.find? (fun pr => pr.1 == i) with
  | some pr => pr.2
  | none => []

/-- Case-insensitive literal (all the source regexes carry the `i` flag or are
applied to lowercased input). -/
def ciLit (s : String) : RE :=
  s.data.foldr (fun ch acc => RE.cat (RE.cset (fun c => toLowerChar c == ch)) acc) RE.eps

/-- One whitespace character (`\s`). -/
def wsOne : RE := .cset isSpaceChar

/-- Greedy `\s+`. -/
def wsPlusG : RE := .cat wsOne (.starG wsOne)

/-- Greedy `\s*`. -/
def wsStarG : RE := .starG wsOne

/-- One digit (`\d`). -/
def digitRE : RE := .cset isDigitChar

/-- Greedy `\d{1,2}`. -/
def digit12 : RE := .cat digitRE (.optG digitRE)

/-!
Embedding of the intent parser of `convex/ycloud.ts`:
`parseSingleFincaRequest` and `parseLocationAndDates`.
-/

/-- The character class `[a-záéíóúñ0-9\s#]` with the `i` flag. -/
def inFincaClass (c : Char) : Bool :=
  let lc := toLowerChar c
  ('a' ≤ lc && lc ≤ 'z') || lc == 'á' || lc == 'é' || lc == 'í' || lc == 'ó' ||
    lc == 'ú' || lc == 'ñ' || isDigitChar c || isSpaceChar c || c == '#'

/-- The character class `[a-záéíóúñ\s]` with the `i` flag. -/
def inLocClass (c : Char) : Bool :=
  let lc := toLowerChar c
  ('a' ≤ lc && lc ≤ 'z') || lc == 'á' || lc == 'é' || lc == 'í' || lc == 'ó' ||
    lc == 'ú' || lc == 'ñ' || isSpaceChar c

/-- Greedy `[a-záéíóúñ0-9\s#]+` (the capture body of the three finca
patterns). -/
def fincaBody : RE := .cat (.cset inFincaClass) (.starG (.cset inFincaClass))

/-- Pattern 1 of `parseSingleFincaRequest`:
`(?:quiero\s+)?(?:ver|mostrar)\s+(?:la\s+)?(?:finca\s+)?(?:de\s+)?([a-záéíóúñ0-9\s#]+)` with `i`. -/
def fincaP1 : RE :=
  .cat (.optG (.cat (ciLit "quiero") wsPlusG))
    (.cat (.alt (ciLit "ver") (ciLit "mostrar"))
      (.cat wsPlusG
        (.cat (.optG (.cat (ciLit "la") wsPlusG))
          (.cat (.optG (.cat (ciLit "finca") wsPlusG))
            (.cat (.optG (.cat (ciLit "de") wsPlusG))
              (.grp 1 fincaBody))))))

/-- Pattern 2 of `parseSingleFincaRequest`:
`(?:la\s+)?finca\s+(?:de\s+)?([a-záéíóúñ0-9\s#]+)` with `i`. -/
def fincaP2 : RE :=
  .cat (.optG (.cat (ciLit "la") wsPlusG))
    (.cat (ciLit "finca")
      (.cat wsPlusG
        (.cat (.optG (.cat (ciLit "de") wsPlusG))
          (.grp 1 fincaBody))))

/-- Pattern 3 of `parseSingleFincaRequest`:
`(?:ver|mostrar)\s+([a-záéíóúñ0-9\s#]+)` with `i`. -/
def fincaP3 : RE :=
  .cat (.alt (ciLit "ver") (ciLit "mostrar")) (.cat wsPlusG (.grp 1 fincaBody))

/-- The fixed priority order of the three patterns. -/
def fincaPatterns : List RE := [fincaP1, fincaP2, fincaP3]

/-- The trimmed first capture of a pattern's leftmost match, when the pattern
matches (`m[1].trim()` in the source). -/
def termOfPattern (re : RE) (msg : Str) : Option Str :=
  (reSearch re msg).map (fun caps => jsTrim (capOf caps 1))

/-- The stray-article test `/^(la|el|de|una?)$/i.test(term)` (an anchored full
match, so equivalent to case-insensitive membership in the five words). -/
def strayArticle (term : Str) : Bool :=
  let t := toLowerStr term
  t == "la".data || t == "el".data || t == "de".data || t == "un".data || t == "una".data

/-- The filter applied to a captured term in the source loop:
`term.length >= 2 && !/^(la|el|de|una?)$/i.test(term)`. -/
def acceptTerm (term : Str) : Bool :=
  2 ≤ term.length && !strayArticle term

/-- A pattern outcome that yields no accepted term: either no match, or a
captured term failing the length/stray-article filter. -/
def rejectedTerm (o : Option Str) : Prop :=
  ∀ t, o = some t → acceptTerm t = false

/-- The `for (const re of patterns)` loop of `parseSingleFincaRequest`: the
first pattern that matches and whose trimmed term passes `acceptTerm` yields
the result; a rejected term falls through to the next pattern. -/
def tryPatterns : List RE → Str → Option Str
  | [], _ => none
  | re :: rest, msg =>
    match termOfPattern re msg with
    | some term => if acceptTerm term then some term else tryPatterns rest msg
    | none => tryPatterns rest msg

/-- Embedding of `parseSingleFincaRequest` (convex/ycloud.ts lines 368-385). -/
def parseSingleFincaRequest (userMessage : Str) : Option Str :=
  let msg := jsTrim userMessage
  if msg.length < 4 then none
  else tryPatterns fincaPatterns msg

/-- The location regex of `parseLocationAndDates`:
`(?:para|en)\s+([a-záéíóúñ\s]+?)(?:\s+del\s|\s+para\s|\s+\d|$)` with `i`
(the capture is a lazy plus; the terminator alternatives are tried left to
right). -/
def locRE : RE :=
  .cat (.alt (ciLit "para") (ciLit "en"))
    (.cat wsPlusG
      (.cat (.grp 1 (.cat (.cset inLocClass) (.starL (.cset inLocClass))))
        (.alt (.cat wsPlusG (.cat (ciLit "del") wsOne))
          (.alt (.cat wsPlusG (.cat (ciLit "para") wsOne))
            (.alt (.cat wsPlusG digitRE) .eos)))))

/-- The date regex of `parseLocationAndDates`:
`(?:del\s+)?(\d{1,2})\s*al\s*(\d{1,2})` with `i`. -/
def dateRE : RE :=
  .cat (.optG (.cat (ciLit "del") wsPlusG))
    (.cat (.grp 1 digit12)
      (.cat wsStarG
        (.cat (ciLit "al") (.cat wsStarG (.grp 2 digit12)))))

/-- The location extracted by `parseLocationAndDates`:
`locationMatch ? locationMatch[1].trim().replace(/\s+/g, " ") : ""` applied to
the trimmed, lowercased message. -/
def locationOf (userMessage : Str) : Str :=
  let msg := toLowerStr (jsTrim userMessage)
  match reSearch locRE msg with
  | some caps => collapseWs (jsTrim (capOf caps 1))
  | none => []

/-- The day pair extracted by `parseLocationAndDates`: the two parsed capture
groups of the date regex, when it matches. -/
def dayPairOf (userMessage : Str) : Option (Nat × Nat) :=
  let msg := toLowerStr (jsTrim userMessage)
  (reSearch dateRE msg).map (fun caps => (digitsToNat (capOf caps 1), digitsToNat (capOf caps 2)))

/-- A calendar instant `new Date(year, month, day)` (midnight local time of
that day), represented by its constructor arguments; `month` is 0-based as in
JS and `day` may exceed the month length exactly as the constructor argument
may. -/
structure DateYMD where
  year : Nat
  month : Nat
  day : Nat
deriving DecidableEq

/-- Result record of `parseLocationAndDates`. -/
structure LocDates where
  location : Str
  fechaEntrada : DateYMD
  fechaSalida : DateYMD
deriving DecidableEq

/-- Embedding of `parseLocationAndDates` (convex/ycloud.ts lines 391-412).
`year` and `month` stand for `now.getFullYear()` and `now.getMonth()`;
`fechaSalida` is built from day `d2 + 1` (midnight after the second day). -/
def parseLocationAndDates (year month : Nat) (userMessage : Str) : Option LocDates :=
  let location := locationOf userMessage
  match dayPairOf userMessage with
  | none => none
  | some (d1, d2) =>
    if location == [] then none
    else if d1 < 1 || 31 < d1 || d2 < 1 || 31 < d2 then none
    else some ⟨location, ⟨year, month, d1⟩, ⟨year, month, d2 + 1⟩⟩

/-!
Embedding of `convex/whatsappCatalogs.ts` (catalog records and resolution)
and of `propertyWhatsAppCatalog` (the listing-to-catalog link store with its
scheduled Meta sync jobs).
-/

/-- A `whatsappCatalogs` row.  `id` is the document id; rows of the store are
kept in `_creationTime` order, which is the iteration order of an unindexed
`collect()` and of the `by_is_default` index within equal keys. -/
structure CatalogRec where
  id : Nat
  name : Str
  whatsappCatalogId : Str
  isDefault : Option Bool
  locationKeyword : Option Str
  order : Option Int
deriving DecidableEq

/-- The predicate of `getByLocationKeyword`:
`c.locationKeyword && locLower.includes(c.locationKeyword.toLowerCase())`
(an empty keyword is falsy and never matches). -/
def keywordMatches (locLower : Str) (c : CatalogRec) : Bool :=
  match c.locationKeyword with
  | some k => !(k == []) && containsSub locLower (toLowerStr k)
  | none => false

/-- Embedding of `whatsappCatalogs.getByLocationKeyword` (lines 40-52): the
first catalog in stored order whose keyword is contained in the trimmed,
lowercased location. -/
def getByLocationKeyword (catalogs : List CatalogRec) (location : Str) : Option CatalogRec :=
  let locLower := toLowerStr (jsTrim location)
  if locLower == [] then none
  else catalogs.find? (fun c => keywordMatches locLower c)

/-- The sort key `(c.order ?? 999)` of `getDefault`. -/
def orderKey (c : CatalogRec) : Int := c.order.getD 999

/-- The comparator relation `(a.order ?? 999) <= (b.order ?? 999)` of the
sort in `getDefault`. -/
def orderLe (a b : CatalogRec) : Prop := orderKey a ≤ orderKey b

instance : DecidableRel orderLe := fun a b => inferInstanceAs (Decidable (orderKey a ≤ orderKey b))

instance : IsTotal CatalogRec orderLe := ⟨fun a b => Int.le_total (orderKey a) (orderKey b)⟩

instance : IsTrans CatalogRec orderLe := ⟨fun _ _ _ => Int.le_trans⟩

/-- Embedding of `.sort((a, b) => (a.order ?? 999) - (b.order ?? 999))`: a
stable sort by `orderKey` (JS `Array.prototype.sort` is stable). -/
def sortByOrder (catalogs : List CatalogRec) : List CatalogRec :=
  catalogs.insertionSort orderLe

/-- Embedding of `whatsappCatalogs.getDefault` (lines 26-37): the first row
with `isDefault = true` in stored order, else the lowest-`order` row. -/
def getDefault (catalogs : List CatalogRec) : Option CatalogRec :=
  match catalogs.find? (fun c => c.isDefault == some true) with
  | some c => some c
  | none => (sortByOrder catalogs).head?

/-- Catalog resolution as composed by `maybeSendCatalogForUserMessage`
(convex/ycloud.ts lines 487-493): keyword match first, then the default
catalog. -/
def resolveCatalogForLocation (catalogs : List CatalogRec) (location : Str) : Option CatalogRec :=
  match getByLocationKeyword catalogs location with
  | some c => some c
  | none => getDefault catalogs

/-- A `propertyWhatsAppCatalog` row (listing-catalog link). -/
structure CatLink where
  id : Nat
  propertyId : Nat
  catalogId : Nat
  productRetailerId : Str
  createdAt : Nat
  updatedAt : Nat
deriving DecidableEq

/-- The catalog-related store: catalog rows and link rows, in creation
order, plus an id source for inserts. -/
structure CatalogStore where
  catalogs : List CatalogRec
  links : List CatLink
  nextLinkId : Nat
deriving DecidableEq

/-- Sync direction of `metaCatalog.syncProductToMetaCatalog`. -/
inductive SyncMethod where
  | create
  | update
deriving DecidableEq

/-- A job scheduled with `ctx.scheduler.runAfter(0, ...)`:
`deleteItems` is one `metaCatalog.deleteFromMetaCatalogs` call carrying
`(whatsappCatalogId, retailer_id)` pairs (it issues one remote DELETE request
per pair); `syncProduct` is one `metaCatalog.syncProductToMetaCatalog` call. -/
inductive MetaJob where
  | deleteItems (items : List (Str × Str))
  | syncProduct (whatsappCatalogId : Str) (propertyId : Nat) (method : SyncMethod)
deriving DecidableEq

/-- Document lookup `ctx.db.get(catalogId)`. -/
def findCatalog (catalogs : List CatalogRec) (catalogId : Nat) : Option CatalogRec :=
  catalogs.find? (fun c => c.id == catalogId)

/-- Embedding of `propertyWhatsAppCatalog.setPropertyCatalogs` (replace-all
links; unnamed source part_005 lines 147-192): delete every existing link of
the listing, schedule one remote-delete job for the pairs whose catalog row
still exists, then insert the new entries, scheduling a CREATE sync for each
entry whose catalog exists. -/
def setPropertyCatalogs (st : CatalogStore) (propertyId : Nat)
    (entries : List (Nat × Str)) (now : Nat) : CatalogStore × List MetaJob :=
  let existing := st.links.filter (fun l => l.propertyId == propertyId)
  let toDeleteFromMeta := existing.filterMap
    (fun e => (findCatalog st.catalogs e.catalogId).map
      (fun c => (c.whatsappCatalogId, e.productRetailerId)))
  let st1 := { st with links := st.links.filter (fun l => !(l.propertyId == propertyId)) }
  let deleteJobs := if toDeleteFromMeta.isEmpty then [] else [MetaJob.deleteItems toDeleteFromMeta]
  let step := fun (acc : CatalogStore × List MetaJob) (entry : Nat × Str) =>
    match findCatalog acc.1.catalogs entry.1 with
    | none => acc
    | some c =>
      ({ acc.1 with
          links := acc.1.links ++ [⟨acc.1.nextLinkId, propertyId, entry.1, entry.2, now, now⟩],
          nextLinkId := acc.1.nextLinkId + 1 },
        acc.2 ++ [MetaJob.syncProduct c.whatsappCatalogId propertyId .create])
  let (st2, createJobs) := entries.foldl step (st1, [])
  (st2, deleteJobs ++ createJobs)

/-- Number of remote DELETE requests the scheduled jobs will issue
(`deleteFromMetaCatalogs` loops one request per item). -/
def remoteDeleteRequests (jobs : List MetaJob) : Nat :=
  (jobs.map (fun j => match j with | .deleteItems items => items.length | _ => 0)).sum

/-- Number of remote CREATE sync jobs scheduled. -/
def remoteCreateRequests (jobs : List MetaJob) : Nat :=
  jobs.countP (fun j => match j with | .syncProduct _ _ .create => true | _ => false)

/-!
Embedding of `buildMetaPayload` (unnamed source part_004 lines 84-118), the
remote-catalog product payload for a listing.
-/

/-- JS `x || y` on strings (empty string is falsy). -/
def strOr (a b : Str) : Str := if a == [] then b else a

/-- The listing fields `buildMetaPayload` reads.  Prices are integers (COP
amounts in the data). -/
structure PropForCatalog where
  title : Option Str
  description : Option Str
  images : Option (List Str)
  video : Option Str
  priceBase : Option Int
  priceBaja : Option Int
deriving DecidableEq

/-- The payload built for the Meta catalog API; `price` and `salePrice` hold
the numeric part of the `"<n> COP"` strings, `salePrice = none` means the
`sale_price` key is absent from the payload object. -/
structure MetaPayload where
  retailerId : Str
  name : Str
  description : Str
  price : Int
  salePrice : Option Int
  image : Option (List Str)
  video : Option (List Str)
  url : Str
deriving DecidableEq

/-- Embedding of `buildMetaPayload`: `price` defaults to 0, the name falls
back to "Finca", images are filtered for truthiness and omitted when empty,
and `sale_price` is set only when `priceBaja` is a genuine discount
(`priceBaja != null && priceBaja > 0 && priceBaja < price`). -/
def buildMetaPayload (baseUrl : Str) (prop : PropForCatalog) (propertyId : Str) : MetaPayload :=
  let price := prop.priceBase.getD 0
  let productUrl := baseUrl ++ "/fincas/".data ++ propertyId
  let productName := strOr (jsTrim (strOr (prop.title.getD []) "Finca".data)) "Finca".data
  let images := (prop.images.getD []).filter (fun u => !(u == []))
  { retailerId := propertyId
    name := productName
    description := (prop.description.getD []).take 5000
    price := price
    salePrice :=
      match prop.priceBaja with
      | some pb => if 0 < pb && pb < price then some pb else none
      | none => none
    image := if images.length > 0 then some images else none
    video := match prop.video with | some v => if v == [] then none else some [v] | none => none
    url := productUrl }

/-!
Embedding of `sendWhatsAppCatalogList` (convex/ycloud.ts lines 529-597).
-/

/-- JS truthiness of an optional string (`undefined` and the empty string are
falsy). -/
def truthy (o : Option Str) : Bool :=
  match o with
  | some s => !(s == [])
  | none => false

/-- The YCloud configuration read from the environment at call time. -/
structure YCloudEnv where
  apiKey : Option Str
  wabaNumber : Option Str
deriving DecidableEq

/-- The interactive message body `sendWhatsAppCatalogList` posts: a single
`product` message for exactly one retailer id, a `product_list` message
otherwise.  The optional reply-context (`wamid`) only adds an envelope field
and is not represented. -/
inductive CatalogMessage where
  | product (toPhone : Str) (catalogId : Str) (productRetailerId : Str) (bodyText : Str)
  | productList (toPhone : Str) (catalogId : Str) (productRetailerIds : List Str) (bodyText : Str)
deriving DecidableEq

/-- Default body text of the catalog list message. -/
def defaultCatalogBodyText : Str :=
  "Estas son nuestras fincas disponibles para tus fechas:".data

/-- Embedding of `sendWhatsAppCatalogList`.  `net` is the outcome of the
`fetch` to the YCloud API (an error models a non-2xx response, which the
action turns into a thrown error).  The result is `ok none` when nothing was
sent (the empty-list early return, evaluated before any configuration
check), `ok (some msg)` when the interactive message was posted. -/
def sendWhatsAppCatalogList (env : YCloudEnv) (net : Except Str Unit)
    (toPhone : Str) (productRetailerIds : List Str) (bodyText : Option Str)
    (catalogId : Option Str) : Except Str (Option CatalogMessage) :=
  if productRetailerIds.isEmpty then .ok none
  else if !(truthy env.apiKey) || !(truthy env.wabaNumber) then
    .error "YCLOUD_API_KEY y YCLOUD_WABA_NUMBER deben estar configurados en Convex".data
  else if !(truthy catalogId) then
    .error "catalogId es requerido (viene de whatsappCatalogs en la BD)".data
  else
    let bt := bodyText.getD defaultCatalogBodyText
    let cid := catalogId.getD []
    let msg :=
      match productRetailerIds with
      | [rid] => CatalogMessage.product toPhone cid rid bt
      | rids => CatalogMessage.productList toPhone cid rids bt
    match net with
    | .ok _ => .ok (some msg)
    | .error e => .error e

/-!
Embedding of the conversation state machine and the webhook processor
(`convex/http.ts` POST route and `convex/ycloud.ts` mutations/actions).
The helpers `insertUserMessage`, `insertAssistantMessage`,
`conversationGetById` and `updateLastMessageAt` live in `convex/messages.ts`
and `convex/conversations.ts`, which are not in the source tree; they are
modelled from the spec where noted.
-/

/-- Conversation states. -/
inductive ConvStatus where
  | ai
  | human
  | resolved
deriving DecidableEq

/-- Message sender. -/
inductive Sender where
  | user
  | assistant
deriving DecidableEq

/-- A `contacts` row. -/
structure Contact where
  id : Nat
  phone : Str
  name : Str
  createdAt : Nat
deriving DecidableEq

/-- A `conversations` row. -/
structure Conversation where
  id : Nat
  contactId : Nat
  channel : Str
  status : ConvStatus
  lastMessageAt : Nat
  createdAt : Nat
deriving DecidableEq

/-- A `messages` row. -/
structure Message where
  conversationId : Nat
  sender : Sender
  content : Str
  createdAt : Nat
deriving DecidableEq

/-- The document store touched by the webhook pipeline.  Each list is kept in
`_creationTime` order; `nextId` is the id source for inserts. -/
structure DB where
  contacts : List Contact
  conversations : List Conversation
  messages : List Message
  processedEvents : List Str
  nextId : Nat
deriving DecidableEq

/-- Modelled from the spec: the canned welcome script
`CONSULTANT_WELCOME_MESSAGE` from `convex/lib/consultantPrompt.ts`, which is
not in the source tree.  Its exact wording is irrelevant to every claim; a
fixed non-empty placeholder stands for it. -/
def CONSULTANT_WELCOME_MESSAGE : Str := "Bienvenido a FincasYa".data

/-- Embedding of `recordProcessedEvent` (convex/ycloud.ts lines 16-27): if a
`ycloudProcessedEvents` row with this event id exists, report a duplicate
without writing; otherwise insert the id and report a fresh event. -/
def recordProcessedEvent (db : DB) (eventId : Str) : DB × Bool :=
  if db.processedEvents.contains eventId then (db, true)
  else ({ db with processedEvents := db.processedEvents ++ [eventId] }, false)

/-- Embedding of `getOrCreateContact` (convex/ycloud.ts lines 32-47);
`name || phone` falls back to the phone for an empty name. -/
def getOrCreateContact (db : DB) (phone name : Str) (now : Nat) : DB × Nat :=
  match db.contacts.find? (fun c => c.phone == phone) with
  | some c => (db, c.id)
  | none =>
    let cid := db.nextId
    ({ db with
        contacts := db.contacts ++ [⟨cid, phone, strOr name phone, now⟩],
        nextId := db.nextId + 1 }, cid)

/-- The query `conversations.withIndex(by_contact).order("desc").collect()`:
the contact's conversations, most recently created first. -/
def convsByContactDesc (db : DB) (contactId : Nat) : List Conversation :=
  (db.conversations.filter (fun c => c.contactId == contactId)).reverse

/-- The active-status test `c.status === "ai" || c.status === "human"`. -/
def isActiveStatus (s : ConvStatus) : Bool := s == .ai || s == .human

/-- The patch `ctx.db.patch(convId, ...)` updating one conversation's
status. -/
def patchConvStatus (db : DB) (convId : Nat) (st : ConvStatus) : DB :=
  { db with conversations :=
      db.conversations.map (fun c => if c.id == convId then { c with status := st } else c) }

/-- Embedding of `getOrCreateConversation` (convex/ycloud.ts lines 53-91).
Returns the store, the conversation id and the `isNew` flag.  An active
conversation is reused unchanged; else the most recent resolved one is
reactivated to `ai`; else a fresh conversation is created in state `ai` with
the welcome message appended as its first message. -/
def getOrCreateConversation (db : DB) (contactId : Nat) (now : Nat) : DB × Nat × Bool :=
  let all := convsByContactDesc db contactId
  match all.find? (fun c => isActiveStatus c.status) with
  | some active => (db, active.id, false)
  | none =>
    match all.find? (fun c => c.status == .resolved) with
    | some latestResolved => (patchConvStatus db latestResolved.id .ai, latestResolved.id, false)
    | none =>
      let convId := db.nextId
      let newConv := Conversation.mk convId contactId "whatsapp".data ConvStatus.ai now now
      let db1 := { db with
        conversations := db.conversations ++ [newConv],
        nextId := db.nextId + 1 }
      let welcomeRow := Message.mk convId Sender.assistant CONSULTANT_WELCOME_MESSAGE now
      let db2 := { db1 with messages := db1.messages ++ [welcomeRow] }
      (db2, convId, true)

/-- Modelled from the spec: `internal.messages.insertUserMessage`
(convex/messages.ts is not in the source tree).  The Message model is
append-only; this appends one row with sender `user`. -/
def insertUserMessage (db : DB) (conversationId : Nat) (content : Str) (createdAt : Nat) : DB :=
  { db with messages := db.messages ++ [Message.mk conversationId Sender.user content createdAt] }

/-- Modelled from the spec: `internal.messages.insertAssistantMessage`
(convex/messages.ts is not in the source tree).  Appends one row with sender
`assistant`. -/
def insertAssistantMessage (db : DB) (conversationId : Nat) (content : Str) (createdAt : Nat) : DB :=
  { db with messages :=
      db.messages ++ [Message.mk conversationId Sender.assistant content createdAt] }

/-- Modelled from the spec: `api.conversations.getById`
(convex/conversations.ts is not in the source tree).  A plain document
lookup by id. -/
def conversationGetById (db : DB) (conversationId : Nat) : Option Conversation :=
  db.conversations.find? (fun c => c.id == conversationId)

/-- Modelled from the spec: `internal.conversations.updateLastMessageAt`
(convex/conversations.ts is not in the source tree).  Message arrival updates
the conversation's `lastMessageAt` bookkeeping field. -/
def updateLastMessageAt (db : DB) (conversationId : Nat) (now : Nat) : DB :=
  { db with conversations :=
      db.conversations.map (fun c => if c.id == conversationId then { c with lastMessageAt := now } else c) }

/-- Embedding of `markOutboundAsHuman` (convex/ycloud.ts lines 295-312): on a
business-sent message, the contact's most recent conversation is switched to
`human` when it is active; resolved conversations are untouched. -/
def markOutboundAsHuman (db : DB) (phone : Str) : DB :=
  match db.contacts.find? (fun c => c.phone == phone) with
  | none => db
  | some contact =>
    match (convsByContactDesc db contact.id).head? with
    | some conv => if isActiveStatus conv.status then patchConvStatus db conv.id .human else db
    | none => db

/-- Outbound side effects produced while processing an inbound message:
interactive catalog sends and plain text sends through the YCloud API. -/
inductive Effect where
  | catalogSend (toPhone : Str) (productRetailerIds : List Str)
  | textSend (toPhone : Str) (text : Str)
deriving DecidableEq

/-- Result of `maybeSendSingleFincaCatalogForUserMessage`. -/
structure SingleFincaResult where
  sent : Bool
  fincaTitle : Str
deriving DecidableEq

/-- Outcomes of the external collaborators one inbound-message processing run
consults: the two catalog-sending actions (listing search plus catalog send;
their own effects are reported alongside the result), the text-generation
call, and the text-send call.  An `error` value models a thrown exception. -/
structure ActionEnv where
  singleFinca : Except Str (SingleFincaResult × List Effect)
  multiCatalog : Except Str (List Effect)
  genText : Except Str Str
  sendOutcome : Except Str Unit

/-- Embedding of `generateReplyWithRagAndFincas` (convex/ycloud.ts lines
188-237): the RAG search, listing search, history read and prompt assembly
are reads feeding the external `generateText` call; on success the generated
text is persisted as an assistant message and returned, and a thrown
generation error propagates to the caller. -/
def generateReplyWithRagAndFincas (env : ActionEnv) (db : DB) (conversationId : Nat)
    (now : Nat) : Except Str (DB × Str) :=
  match env.genText with
  | .ok text => .ok (insertAssistantMessage db conversationId text now, text)
  | .error e => .error e

/-- Arguments of `processInboundMessage` as declared by its validator
(`eventId, phone, name, text, wamid`).  The webhook caller passes two more
fields, `type` and `mediaUrl`, that this validator does not declare; see
`dispatchProcessInboundMessage` for the consequence. -/
structure InboundArgs where
  eventId : Str
  phone : Str
  name : Str
  text : Str
  wamid : Option Str
deriving DecidableEq

/-- Embedding of `processInboundMessage` (convex/ycloud.ts lines 96-182).
Returns the store after the run, the outbound effects emitted, and the
uncaught exception if one escaped (mutations already committed stay
committed).  The two catalog actions and the final text send are inside
`try/catch` and their errors are swallowed; the reply-generation call is not
wrapped, so its error propagates, skipping `updateLastMessageAt`.  The
`singleFinca` result only shapes the generation prompt, which is external
here. -/
def processInboundMessage (env : ActionEnv) (db : DB) (args : InboundArgs)
    (now : Nat) : DB × List Effect × Option Str :=
  match getOrCreateContact db args.phone args.name now with
  | (db1, contactId) =>
  match getOrCreateConversation db1 contactId now with
  | (db2, conversationId, isNew) =>
  let db3 := insertUserMessage db2 conversationId args.text now
  match conversationGetById db3 conversationId with
  | none => (db3, [], none)
  | some conv =>
    if conv.status == .ai then
      let eff1 :=
        if isNew then []
        else match env.singleFinca with
          | .ok r => r.2
          | .error _ => []
      let eff2 :=
        if isNew then []
        else match env.multiCatalog with
          | .ok es => es
          | .error _ => []
      match (if isNew then Except.ok (db3, CONSULTANT_WELCOME_MESSAGE)
             else generateReplyWithRagAndFincas env db3 conversationId now) with
      | .error e => (db3, eff1 ++ eff2, some e)
      | .ok res =>
        let db4 := res.1
        let replyText := res.2
        let eff3 :=
          if replyText == [] then []
          else match env.sendOutcome with
            | .ok _ => [Effect.textSend args.phone replyText]
            | .error _ => []
        (updateLastMessageAt db4 conversationId now, eff1 ++ eff2 ++ eff3, none)
    else
      (updateLastMessageAt db3 conversationId now, [], none)

/-- The `whatsappInboundMessage` object of a YCloud webhook payload. -/
structure InboundMsg where
  msgId : Option Str
  wamid : Option Str
  fromPhone : Option Str
  profileName : Option Str
  msgType : Option Str
  textBody : Option Str
  imageLink : Option Str
  imageCaption : Option Str
  audioLink : Option Str
  videoLink : Option Str
  videoCaption : Option Str
  documentLink : Option Str
  documentCaption : Option Str
  documentFilename : Option Str
deriving DecidableEq

/-- The parsed webhook body fields the handler reads: the `type`
discriminator, the event `id`, the inbound message object, and
`whatsappOutboundMessage.to`. -/
structure WebhookBody where
  eventType : Option Str
  eventId : Option Str
  inbound : Option InboundMsg
  outboundTo : Option Str
deriving DecidableEq

/-- The content/media derivation of `http.ts` lines 55-78: returns the
display text and media url for each message kind (empty strings when the
payload carries neither). -/
def deriveContent (evt : InboundMsg) : Str × Str :=
  if evt.msgType == some "text".data && truthy evt.textBody then
    (jsTrim (evt.textBody.getD []), [])
  else if evt.msgType == some "image".data && truthy evt.imageLink then
    (strOr (jsTrim (evt.imageCaption.getD [])) "[Imagen]".data, evt.imageLink.getD [])
  else if evt.msgType == some "audio".data && truthy evt.audioLink then
    ("[Audio]".data, evt.audioLink.getD [])
  else if evt.msgType == some "video".data && truthy evt.videoLink then
    (strOr (jsTrim (evt.videoCaption.getD [])) "[Video]".data, evt.videoLink.getD [])
  else if evt.msgType == some "document".data && truthy evt.documentLink then
    (strOr (jsTrim ((evt.documentCaption.orElse (fun _ => evt.documentFilename)).getD []))
      "[Documento]".data, evt.documentLink.getD [])
  else ([], [])

/-- `evt.wamid ?? evt.id`. -/
def wamidOf (evt : InboundMsg) : Option Str :=
  match evt.wamid with
  | some w => some w
  | none => evt.msgId

/-- The fallback event id `evt_<Date.now()>`. -/
def fallbackEventId (now : Nat) : Str := "evt_".data ++ Nat.toDigits 10 now

/-- Body of the webhook's HTTP response: the 400 `Invalid JSON` error object
or the 200 acknowledgement `ok:true, receivedAt, message` (the `receivedAt`
ISO string is represented by the numeric instant it encodes). -/
inductive RespBody where
  | invalidJson
  | okAck (receivedAt : Nat)
deriving DecidableEq

/-- An HTTP response of the webhook route. -/
structure HttpResponse where
  status : Nat
  body : RespBody
deriving DecidableEq

/-- The error message of the Convex `ArgumentValidationError` raised by the
webhook's `runAction` dispatch (see `dispatchProcessInboundMessage`). -/
def ARGUMENT_VALIDATION_ERROR : Str :=
  "ArgumentValidationError: Object contains extra field type".data

/-- Embedding of the `ctx.runAction(internal.ycloud.processInboundMessage,
...)` dispatch made by the webhook (http.ts lines 88-96).  The caller passes
`type` and `mediaUrl` along with the declared arguments, but the action's
validator (ycloud.ts lines 97-103) declares only
`eventId, phone, name, text, wamid`; Convex argument validation rejects the
extra fields, so the dispatch throws an `ArgumentValidationError` before the
action's handler body runs — no state beyond the already-committed dedup
record is touched and no effect is emitted.  The environment and arguments
of the attempted call are kept in the signature. -/
def dispatchProcessInboundMessage (_env : ActionEnv) (db : DB) (_args : InboundArgs)
    (_now : Nat) : DB × List Effect × Option Str :=
  (db, [], some ARGUMENT_VALIDATION_ERROR)

/-- The inbound-message block of the webhook handler (http.ts lines 45-99):
kind check, content derivation, the silent-ignore guard, deduplication, and
the `runAction` dispatch towards `processInboundMessage` (which throws at
argument validation, see `dispatchProcessInboundMessage`). -/
def webhookInboundStep (env : ActionEnv) (db : DB) (body : WebhookBody)
    (now : Nat) : DB × List Effect × Option Str :=
  match body.inbound with
  | some evt =>
    if body.eventType == some "whatsapp.inbound_message.received".data then
      let eventId := body.eventId.getD (fallbackEventId now)
      let phone := evt.fromPhone.getD []
      let name := strOr (jsTrim (evt.profileName.getD [])) phone
      let wamid := wamidOf evt
      let cm := deriveContent evt
      if !(phone == []) && (!(cm.1 == []) || !(cm.2 == [])) then
        let rec1 := recordProcessedEvent db eventId
        if rec1.2 then (rec1.1, ([] : List Effect), (none : Option Str))
        else dispatchProcessInboundMessage env rec1.1 ⟨eventId, phone, name, cm.1, wamid⟩ now
      else (db, [], none)
    else (db, [], none)
  | none => (db, [], none)

/-- Embedding of the `POST /webhooks/ycloud` handler (convex/http.ts lines
12-128).  `parsedBody = none` models a body `JSON.parse` rejects.  The
result carries the store after the call, the outbound effects, and either
the HTTP response or the uncaught exception that escaped the handler (in
which case no 200 acknowledgement is produced). -/
def webhookPost (env : ActionEnv) (db : DB) (parsedBody : Option WebhookBody)
    (now : Nat) : DB × List Effect × Except Str HttpResponse :=
  match parsedBody with
  | none => (db, [], .ok ⟨400, .invalidJson⟩)
  | some body =>
    let inboundRes := webhookInboundStep env db body now
    let db1 := inboundRes.1
    let tr1 := inboundRes.2.1
    match inboundRes.2.2 with
    | some e => (db1, tr1, .error e)
    | none =>
      let db2 :=
        if body.eventType == some "whatsapp.outbound_message.sent".data && truthy body.outboundTo then
          markOutboundAsHuman db1 (body.outboundTo.getD [])
        else db1
      (db2, tr1, .ok ⟨200, .okAck now⟩)

/-!
Concrete fixtures used by the witness and counterexample theorems below.
-/

/-- Environment in which every external collaborator succeeds. -/
def envAllOk : ActionEnv := ⟨.ok (⟨false, []⟩, []), .ok [], .ok "Listo".data, .ok ()⟩

/-- Environment in which the text-generation call throws. -/
def envGenThrows : ActionEnv := ⟨.ok (⟨false, []⟩, []), .ok [], .error "boom".data, .ok ()⟩

/-- A plain inbound text message event. -/
def evtHola : InboundMsg :=
  ⟨some "m1".data, some "w1".data, some "573001112233".data, some "Ana".data,
    some "text".data, some "hola".data, none, none, none, none, none, none, none, none⟩

/-- A webhook body delivering `evtHola` under event id `eid1`. -/
def bodyHola : WebhookBody :=
  ⟨some "whatsapp.inbound_message.received".data, some "eid1".data, some evtHola, none⟩

/-- The empty store. -/
def dbEmpty : DB := ⟨[], [], [], [], 0⟩

/-- A known contact. -/
def contactAna : Contact := ⟨0, "573001112233".data, "Ana".data, 1⟩

/-- Empty store in which event id `eid1` is already recorded. -/
def dbDupEvent : DB := ⟨[], [], [], ["eid1".data], 0⟩

/-- Store with one contact and one `human` conversation. -/
def dbHumanConv : DB := ⟨[contactAna], [⟨1, 0, "whatsapp".data, .human, 1, 1⟩], [], [], 2⟩

/-- Store with one contact and two resolved conversations (id 2 most
recent). -/
def dbTwoResolved : DB :=
  ⟨[contactAna], [⟨1, 0, "whatsapp".data, .resolved, 1, 1⟩, ⟨2, 0, "whatsapp".data, .resolved, 2, 2⟩],
    [], [], 3⟩

/-- The arguments `processInboundMessage` receives for `evtHola`. -/
def argsHola : InboundArgs :=
  ⟨"eid1".data, "573001112233".data, "Ana".data, "hola".data, some "w1".data⟩

/-- The example catalog with keyword `tolima` and order 1 (first in stored
order). -/
def catTolima : CatalogRec := ⟨0, "Tolima".data, "111".data, none, some "tolima".data, some 1⟩

/-- The example default catalog with keyword `bogota` and order 0. -/
def catBogota : CatalogRec := ⟨1, "Bogota".data, "222".data, some true, some "bogota".data, some 0⟩

/-- First-stored catalog with matching keyword `a` but the higher order 5. -/
def catOrder5 : CatalogRec := ⟨0, "A".data, "a1".data, none, some "a".data, some 5⟩

/-- Second-stored catalog with matching keyword `b` and the lower order 1. -/
def catOrder1 : CatalogRec := ⟨1, "B".data, "b1".data, none, some "b".data, some 1⟩

/-- A catalog without default flag, order 9, stored first. -/
def catPlain9 : CatalogRec := ⟨0, "P9".data, "p9".data, none, none, some 9⟩

/-- A catalog without default flag, order 3, stored second. -/
def catPlain3 : CatalogRec := ⟨1, "P3".data, "p3".data, none, none, some 3⟩

/-- Listing with `priceBaja` equal to `priceBase` (no genuine discount). -/
def propEqualPrice : PropForCatalog := ⟨some "F".data, none, none, none, some 500000, some 500000⟩

/-- Listing with `priceBaja` strictly below `priceBase`. -/
def propDiscounted : PropForCatalog := ⟨some "F".data, none, none, none, some 500000, some 400000⟩

/-- Counterexample input for the single-finca parser: pattern 1 matches with
the rejected term `de`, pattern 2 then matches with `rosa`. -/
def cexFinca : Str := "ver de, finca de rosa.".data

/-- A well-formed single-finca request. -/
def msgVillaGreen : Str := "quiero ver la finca de villa green".data

/-- The location-and-dates example message of the spec. -/
def msgRestrepo : Str := "para restrepo del 20 al 21 para 10 personas".data

/-- Catalog store with two catalogs and two links of listing 7. -/
def storeTwoLinks : CatalogStore :=
  ⟨[⟨0, "C1".data, "w1".data, none, none, none⟩, ⟨1, "C2".data, "w2".data, none, none, none⟩],
    [⟨10, 7, 0, "r1".data, 1, 1⟩, ⟨11, 7, 1, "r2".data, 1, 1⟩], 12⟩

/-!
Shared helper lemmas.
-/

/-- A `find?` is the head of the filtered list. -/
theorem find?_eq_head?_filter (p : α → Bool) (l : List α) : l.find? p = (l.filter p).head? := by
  induction l with
  | nil => rfl
  | cons a t ih =>
    rw [List.find?_cons, List.filter_cons]
    by_cases h : p a
    · simp [h]
    · simp only [h, Bool.false_eq_true, if_false, cond_false, ite_false]
      exact ih

/-- `getOrCreateContact` does not touch the processed-event store. -/
theorem processedEvents_getOrCreateContact (db : DB) (phone name : Str) (now : Nat) :
    (getOrCreateContact db phone name now).1.processedEvents = db.processedEvents := by
  unfold getOrCreateContact
  split <;> rfl

/-- `getOrCreateConversation` does not touch the processed-event store. -/
theorem processedEvents_getOrCreateConversation (db : DB) (contactId now : Nat) :
    (getOrCreateConversation db contactId now).1.processedEvents = db.processedEvents := by
  unfold getOrCreateConversation
  dsimp only
  split
  · rfl
  · split <;> rfl

/-- A successful `generateReplyWithRagAndFincas` only appends a message. -/
theorem generateReply_ok_state (env : ActionEnv) (db : DB) (conversationId now : Nat)
    (res : DB × Str) (h : generateReplyWithRagAndFincas env db conversationId now = .ok res) :
    res.1 = insertAssistantMessage db conversationId res.2 now := by
  unfold generateReplyWithRagAndFincas at h
  revert h
  cases env.genText <;> intro h
  · cases h
  · cases h
    rfl

/-- `processInboundMessage` does not touch the processed-event store (only
the webhook's dedup block writes it). -/
theorem processedEvents_processInboundMessage (env : ActionEnv) (db : DB)
    (args : InboundArgs) (now : Nat) :
    (processInboundMessage env db args now).1.processedEvents = db.processedEvents := by
  rcases hA : getOrCreateContact db args.phone args.name now with ⟨db1, cid⟩
  rcases hB : getOrCreateConversation db1 cid now with ⟨db2, convId, isNew⟩
  have e1 : db1.processedEvents = db.processedEvents := by
    have h := processedEvents_getOrCreateContact db args.phone args.name now
    rw [hA] at h
    exact h
  have e2 : db2.processedEvents = db1.processedEvents := by
    have h := processedEvents_getOrCreateConversation db1 cid now
    rw [hB] at h
    exact h
  unfold processInboundMessage
  rw [hA]
  dsimp only
  rw [hB]
  dsimp only
  split
  · simp [insertUserMessage, e2, e1]
  · split
    · split
      · next e heq =>
        simp [insertUserMessage, e2, e1]
      · next res heq =>
        revert heq
        split
        · intro heq
          cases heq
          simp [updateLastMessageAt, insertUserMessage, e2, e1]
        · intro heq
          have hr := generateReply_ok_state env _ _ now res heq
          rw [hr]
          simp [updateLastMessageAt, insertAssistantMessage, insertUserMessage, e2, e1]
    · simp [updateLastMessageAt, insertUserMessage, e2, e1]

/-!
Claim theorems.
-/

/-- C10: a call to `sendWhatsAppCatalogList` with an empty
`productRetailerIds` array returns null without sending anything and without
raising any error, for every configuration (including absent API key,
sending number and catalog id) and every network outcome, because the
empty-list check is evaluated before any configuration validation. -/
theorem c10_empty_product_list_is_noop :
    ∀ (env : YCloudEnv) (net : Except Str Unit) (toPhone : Str)
      (bodyText catalogId : Option Str),
      sendWhatsAppCatalogList env net toPhone [] bodyText catalogId = .ok none := by
  intro env net toPhone bodyText catalogId
  rfl

/-- C6: the remote-catalog product payload contains a `sale_price` field iff
`priceBaja` is present, strictly positive and strictly below the pushed base
price (`priceBase` with default 0); when present it equals `priceBaja`; in
particular `priceBase = 500000, priceBaja = 500000` omits the field and
`priceBase = 500000, priceBaja = 400000` yields `sale_price = 400000`. -/
theorem c6_sale_price_iff_genuine_discount :
    (∀ (baseUrl : Str) (prop : PropForCatalog) (pid : Str),
        (buildMetaPayload baseUrl prop pid).price = prop.priceBase.getD 0 ∧
        ((buildMetaPayload baseUrl prop pid).salePrice ≠ none ↔
          ∃ pb, prop.priceBaja = some pb ∧ 0 < pb ∧ pb < prop.priceBase.getD 0)) ∧
    (∀ (baseUrl : Str) (prop : PropForCatalog) (pid : Str) (pb : Int),
        (buildMetaPayload baseUrl prop pid).salePrice = some pb → prop.priceBaja = some pb) ∧
    (∀ baseUrl : Str, (buildMetaPayload baseUrl propEqualPrice "p1".data).salePrice = none) ∧
    (∀ baseUrl : Str, (buildMetaPayload baseUrl propDiscounted "p1".data).salePrice = some 400000) := by
  refine ⟨?_, ?_, ?_, ?_⟩
  · intro baseUrl prop pid
    refine ⟨rfl, ?_⟩
    simp only [buildMetaPayload]
    cases prop.priceBaja with
    | none => simp
    | some pb =>
      by_cases h1 : 0 < pb <;> by_cases h2 : pb < prop.priceBase.getD 0 <;>
        simp [h1, h2]
  · intro baseUrl prop pid pb h
    simp only [buildMetaPayload] at h
    revert h
    cases prop.priceBaja with
    | none => intro h; cases h
    | some pb2 =>
      by_cases h1 : 0 < pb2 <;> by_cases h2 : pb2 < prop.priceBase.getD 0 <;>
        simp [h1, h2]
  · intro baseUrl
    rfl
  · intro baseUrl
    rfl

/-- Witness for C6: the discounted example instantiates the
payload-to-priceBaja implication. -/
theorem c6_witness :
    (buildMetaPayload "https://fincasya.cloud".data propDiscounted "p1".data).salePrice
        = some 400000 ∧
    propDiscounted.priceBaja = some 400000 :=
  ⟨rfl, c6_sale_price_iff_genuine_discount.2.1 "https://fincasya.cloud".data propDiscounted
    "p1".data 400000 rfl⟩

/-- A just-recorded event id is found by `contains`. -/
theorem contains_append_one (l : List Str) (x : Str) : (l ++ [x]).contains x = true := by
  have hx : x ∈ l ++ [x] := List.mem_append_right l (List.mem_singleton_self x)
  exact List.elem_eq_true_of_mem hx

/-- Closed form of the inbound block for an inbound-message body with an
explicit event id: the silent-ignore guard, then dedup, then the dispatch,
which throws its argument-validation error after the id was recorded. -/
theorem webhookInboundStep_inbound (env : ActionEnv) (dbx : DB) (nx : Nat)
    (b : WebhookBody) (evt : InboundMsg) (eid : Str)
    (hT : b.eventType = some "whatsapp.inbound_message.received".data)
    (hin : b.inbound = some evt) (heid : b.eventId = some eid) :
    webhookInboundStep env dbx b nx =
      (if !(evt.fromPhone.getD [] == []) &&
          (!((deriveContent evt).1 == []) || !((deriveContent evt).2 == [])) then
        (if dbx.processedEvents.contains eid then (dbx, ([] : List Effect), (none : Option Str))
         else ({ dbx with processedEvents := dbx.processedEvents ++ [eid] }, [],
            some ARGUMENT_VALIDATION_ERROR))
      else (dbx, [], none)) := by
  unfold webhookInboundStep
  rw [hin]
  dsimp only
  rw [hT, heid]
  simp only [Option.getD_some]
  have hbt : ((some "whatsapp.inbound_message.received".data
      == some "whatsapp.inbound_message.received".data) = true) := by decide
  rw [if_pos hbt]
  by_cases hg : (!(evt.fromPhone.getD [] == []) &&
      (!((deriveContent evt).1 == []) || !((deriveContent evt).2 == []))) = true
  · rw [if_pos hg, if_pos hg]
    by_cases hc : dbx.processedEvents.contains eid = true
    · have hrec : recordProcessedEvent dbx eid = (dbx, true) := by
        unfold recordProcessedEvent
        rw [if_pos hc]
      rw [hrec, if_pos hc]
      rfl
    · have hrec : recordProcessedEvent dbx eid =
          ({ dbx with processedEvents := dbx.processedEvents ++ [eid] }, false) := by
        unfold recordProcessedEvent
        rw [if_neg hc]
      rw [hrec, if_neg hc]
      rfl
  · rw [if_neg hg, if_neg hg]

/-- For an inbound-typed body the outbound block is a no-op, so the response
of the POST handler is determined by the inbound step: its state, its
effects, and 200 when no error escaped, no response otherwise. -/
theorem webhookPost_inbound_shape (env : ActionEnv) (db : DB) (now : Nat) (b : WebhookBody)
    (hT : b.eventType = some "whatsapp.inbound_message.received".data) :
    webhookPost env db (some b) now =
      ((webhookInboundStep env db b now).1,
        (webhookInboundStep env db b now).2.1,
        match (webhookInboundStep env db b now).2.2 with
        | some e => Except.error e
        | none => Except.ok ⟨200, RespBody.okAck now⟩) := by
  have hOutFalse : (b.eventType == some "whatsapp.outbound_message.sent".data
      && truthy b.outboundTo) = false := by
    rw [hT]
    rfl
  unfold webhookPost
  dsimp only
  rcases his : (webhookInboundStep env db b now).2.2 with _ | e
  · dsimp only
    rw [hOutFalse]
    simp
  · rfl

/-- Counterexample for C2: a syntactically valid JSON body carrying a fresh
guarded inbound text message makes the handler throw — the `runAction`
dispatch fails Convex argument validation on the undeclared `type` field —
so no 200 acknowledgement is produced, refuting the claim's "200 regardless
of the internal outcome of processing". -/
theorem c2_counterexample_validation_error_escapes :
    (webhookPost envAllOk dbEmpty (some bodyHola) 100).2.2
        = Except.error ARGUMENT_VALIDATION_ERROR := by
  decide

/-- C2 amended: an invalid-JSON body yields status 400 with the
`Invalid JSON` error and no state change and no outbound effect; for valid
JSON, whenever the handler does return an acknowledgement it is the 200 `ok`
one, and it returns it exactly on the paths that never reach the inbound
dispatch — in particular a duplicate event id is skipped and acknowledged
with 200 — while a fresh guarded inbound message records its event id and
then throws the dispatch's argument-validation error (the webhook passes the
undeclared `type`/`mediaUrl` fields), which escapes the handler so that no
200 acknowledgement is produced. -/
theorem c2_http_ack_amended :
    (∀ (env : ActionEnv) (db : DB) (now : Nat),
        webhookPost env db none now = (db, [], .ok ⟨400, .invalidJson⟩)) ∧
    (∀ (env : ActionEnv) (db : DB) (b : WebhookBody) (now : Nat) (r : HttpResponse),
        (webhookPost env db (some b) now).2.2 = .ok r → r = ⟨200, .okAck now⟩) ∧
    (∀ (env : ActionEnv) (db : DB) (b : WebhookBody) (now : Nat) (evt : InboundMsg) (eid : Str),
        b.eventType = some "whatsapp.inbound_message.received".data →
        b.inbound = some evt → b.eventId = some eid →
        (!(evt.fromPhone.getD [] == []) &&
          (!((deriveContent evt).1 == []) || !((deriveContent evt).2 == []))) = true →
        db.processedEvents.contains eid = false →
        webhookPost env db (some b) now =
          ({ db with processedEvents := db.processedEvents ++ [eid] }, [],
            .error ARGUMENT_VALIDATION_ERROR)) ∧
    (∀ (env : ActionEnv) (db : DB) (b : WebhookBody) (now : Nat) (evt : InboundMsg) (eid : Str),
        b.eventType = some "whatsapp.inbound_message.received".data →
        b.inbound = some evt → b.eventId = some eid →
        db.processedEvents.contains eid = true →
        webhookPost env db (some b) now = (db, [], .ok ⟨200, .okAck now⟩)) := by
  refine ⟨?_, ?_, ?_, ?_⟩
  · intro env db now
    rfl
  · intro env db b now r h
    unfold webhookPost at h
    revert h
    dsimp only
    split
    · intro h
      cases h
    · intro h
      cases h
      rfl
  · intro env db b now evt eid hT hin heid hg hc
    rw [webhookPost_inbound_shape env db now b hT,
      webhookInboundStep_inbound env db now b evt eid hT hin heid]
    rw [if_pos hg, if_neg (by rw [hc]; simp)]
  · intro env db b now evt eid hT hin heid hc
    rw [webhookPost_inbound_shape env db now b hT,
      webhookInboundStep_inbound env db now b evt eid hT hin heid]
    by_cases hg : (!(evt.fromPhone.getD [] == []) &&
        (!((deriveContent evt).1 == []) || !((deriveContent evt).2 == []))) = true
    · rw [if_pos hg, if_pos hc]
    · rw [if_neg hg]

/-- Witness for C2: a second delivery of an already-recorded event id is
skipped and acknowledged with 200 and no state change. -/
theorem c2_witness :
    webhookPost envAllOk dbDupEvent (some bodyHola) 55
        = (dbDupEvent, [], .ok ⟨200, RespBody.okAck 55⟩) :=
  c2_http_ack_amended.2.2.2 envAllOk dbDupEvent bodyHola 55 evtHola ("eid1".data)
    rfl rfl rfl (by decide)

/-- Helper: a missing pattern match yields no accepted term. -/
theorem rejectedTerm_none : rejectedTerm none := by
  intro t h
  cases h

/-- Helper: a match whose term fails the filter yields no accepted term. -/
theorem rejectedTerm_of_false (t1 : Str) (h : acceptTerm t1 = false) :
    rejectedTerm (some t1) := by
  intro t ht
  cases ht
  exact h

/-- Counterexample for C8: on `"ver de, finca de rosa."` the first pattern in
priority order matches with the rejected captured term `de`, yet the parser
returns `rosa` (captured by the second pattern) instead of the null result
the claim's "exactly the first matching pattern is used" prescribes. -/
theorem c8_counterexample_fallthrough :
    parseSingleFincaRequest cexFinca = some ("rosa".data) ∧
    termOfPattern fincaP1 (jsTrim cexFinca) = some ("de".data) ∧
    acceptTerm "de".data = false := by
  refine ⟨by decide, by decide, by decide⟩

/-- One step of the pattern loop, when the result is a term. -/
theorem tryPatterns_cons_some (re : RE) (rest : List RE) (msg t : Str)
    (h : tryPatterns (re :: rest) msg = some t) :
    (termOfPattern re msg = some t ∧ acceptTerm t = true) ∨
    (rejectedTerm (termOfPattern re msg) ∧ tryPatterns rest msg = some t) := by
  revert h
  rcases hT : termOfPattern re msg with _ | t1
  · intro h
    right
    refine ⟨rejectedTerm_none, ?_⟩
    simpa [tryPatterns, hT] using h
  · cases ha : acceptTerm t1 with
    | true =>
      intro h
      left
      have hsome : some t1 = some t := by simpa [tryPatterns, hT, ha] using h
      cases hsome
      exact ⟨rfl, ha⟩
    | false =>
      intro h
      right
      refine ⟨rejectedTerm_of_false t1 ha, ?_⟩
      simpa [tryPatterns, hT, ha] using h

/-- One step of the pattern loop, when the loop falls through entirely. -/
theorem tryPatterns_cons_none (re : RE) (rest : List RE) (msg : Str)
    (h : tryPatterns (re :: rest) msg = none) :
    rejectedTerm (termOfPattern re msg) ∧ tryPatterns rest msg = none := by
  revert h
  rcases hT : termOfPattern re msg with _ | t1
  · intro h
    exact ⟨rejectedTerm_none, by simpa [tryPatterns, hT] using h⟩
  · cases ha : acceptTerm t1 with
    | true =>
      intro h
      simp [tryPatterns, hT, ha] at h
    | false =>
      intro h
      exact ⟨rejectedTerm_of_false t1 ha, by simpa [tryPatterns, hT, ha] using h⟩

/-- C8 amended: the parser returns null for every input whose trimmed length
is below 4; otherwise the patterns are tried in the fixed priority order and
the first pattern whose captured trimmed term passes the filter (length at
least 2 and not a stray article) determines the result — a matching pattern
whose term is rejected falls through to later patterns — and the result is
null exactly when every pattern fails to produce an accepted term. -/
theorem c8_single_finca_priority (s : Str) :
    ((jsTrim s).length < 4 → parseSingleFincaRequest s = none) ∧
    (∀ t, parseSingleFincaRequest s = some t →
        4 ≤ (jsTrim s).length ∧ acceptTerm t = true ∧
        (termOfPattern fincaP1 (jsTrim s) = some t ∨
          (rejectedTerm (termOfPattern fincaP1 (jsTrim s)) ∧
            (termOfPattern fincaP2 (jsTrim s) = some t ∨
              (rejectedTerm (termOfPattern fincaP2 (jsTrim s)) ∧
                termOfPattern fincaP3 (jsTrim s) = some t))))) ∧
    (4 ≤ (jsTrim s).length → parseSingleFincaRequest s = none →
        rejectedTerm (termOfPattern fincaP1 (jsTrim s)) ∧
        rejectedTerm (termOfPattern fincaP2 (jsTrim s)) ∧
        rejectedTerm (termOfPattern fincaP3 (jsTrim s))) := by
  have hunfold : parseSingleFincaRequest s =
      if (jsTrim s).length < 4 then none else tryPatterns fincaPatterns (jsTrim s) := rfl
  by_cases hlen : (jsTrim s).length < 4
  · refine ⟨fun _ => by rw [hunfold, if_pos hlen], ?_, ?_⟩
    · intro t h
      rw [hunfold, if_pos hlen] at h
      cases h
    · intro h4
      omega
  · have h4 : 4 ≤ (jsTrim s).length := by omega
    have hpar : parseSingleFincaRequest s = tryPatterns fincaPatterns (jsTrim s) := by
      rw [hunfold, if_neg hlen]
    refine ⟨fun hc => absurd hc hlen, ?_, ?_⟩
    · intro t h
      rw [hpar] at h
      refine ⟨h4, ?_, ?_⟩
      · rcases tryPatterns_cons_some _ _ _ _ h with ⟨_, a1⟩ | ⟨_, h2⟩
        · exact a1
        · rcases tryPatterns_cons_some _ _ _ _ h2 with ⟨_, a2⟩ | ⟨_, h3⟩
          · exact a2
          · rcases tryPatterns_cons_some _ _ _ _ h3 with ⟨_, a3⟩ | ⟨_, h0⟩
            · exact a3
            · cases h0
      · rcases tryPatterns_cons_some _ _ _ _ h with ⟨e1, _⟩ | ⟨r1, h2⟩
        · exact Or.inl e1
        · rcases tryPatterns_cons_some _ _ _ _ h2 with ⟨e2, _⟩ | ⟨r2, h3⟩
          · exact Or.inr ⟨r1, Or.inl e2⟩
          · rcases tryPatterns_cons_some _ _ _ _ h3 with ⟨e3, _⟩ | ⟨_, h0⟩
            · exact Or.inr ⟨r1, Or.inr ⟨r2, e3⟩⟩
            · cases h0
    · intro _ h
      rw [hpar] at h
      obtain ⟨r1, h2⟩ := tryPatterns_cons_none _ _ _ h
      obtain ⟨r2, h3⟩ := tryPatterns_cons_none _ _ _ h2
      obtain ⟨r3, _⟩ := tryPatterns_cons_none _ _ _ h3
      exact ⟨r1, r2, r3⟩

/-- Witness for C8: the well-formed request instantiates the
characterization (its first pattern matches with the accepted term
`villa green`). -/
theorem c8_witness :
    4 ≤ (jsTrim msgVillaGreen).length ∧ acceptTerm "villa green".data = true ∧
    (termOfPattern fincaP1 (jsTrim msgVillaGreen) = some ("villa green".data) ∨
      (rejectedTerm (termOfPattern fincaP1 (jsTrim msgVillaGreen)) ∧
        (termOfPattern fincaP2 (jsTrim msgVillaGreen) = some ("villa green".data) ∨
          (rejectedTerm (termOfPattern fincaP2 (jsTrim msgVillaGreen)) ∧
            termOfPattern fincaP3 (jsTrim msgVillaGreen) = some ("villa green".data))))) :=
  (c8_single_finca_priority msgVillaGreen).2.1 ("villa green".data) (by decide)

/-- C7: `parseLocationAndDates` succeeds exactly when the location regex
yields a non-empty trimmed phrase and the day-pair regex matches with both
days in 1..31; on success the entry date is midnight of the first day in the
current month/year and the exit date is midnight of the day after the second
day (half-open range); the spec's `restrepo` example yields location
`restrepo`, entry day 20 and exit day 22. -/
theorem c7_location_dates_parse :
    (∀ (y m : Nat) (msg : Str),
        (parseLocationAndDates y m msg).isSome ↔
          (locationOf msg ≠ [] ∧ ∃ d1 d2, dayPairOf msg = some (d1, d2) ∧
            1 ≤ d1 ∧ d1 ≤ 31 ∧ 1 ≤ d2 ∧ d2 ≤ 31)) ∧
    (∀ (y m : Nat) (msg : Str) (r : LocDates), parseLocationAndDates y m msg = some r →
        r.location = locationOf msg ∧ ∃ d1 d2, dayPairOf msg = some (d1, d2) ∧
          r.fechaEntrada = ⟨y, m, d1⟩ ∧ r.fechaSalida = ⟨y, m, d2 + 1⟩) ∧
    (∀ y m : Nat, parseLocationAndDates y m msgRestrepo =
        some ⟨"restrepo".data, ⟨y, m, 20⟩, ⟨y, m, 22⟩⟩) := by
  refine ⟨?_, ?_, ?_⟩
  · intro y m msg
    unfold parseLocationAndDates
    rcases hD : dayPairOf msg with _ | ⟨d1, d2⟩
    · simp
    · dsimp only
      by_cases hL : locationOf msg = []
      · simp [hL]
      · have hne : ¬ ((locationOf msg == []) = true) := by simp [hL]
        rw [if_neg hne]
        by_cases hC : d1 < 1 ∨ 31 < d1 ∨ d2 < 1 ∨ 31 < d2
        · have hb : (d1 < 1 || 31 < d1 || d2 < 1 || 31 < d2) = true := by
            simp only [Bool.or_eq_true, decide_eq_true_eq]
            tauto
          rw [if_pos hb]
          simp only [Option.isSome_none, Bool.false_eq_true, false_iff, not_and]
          intro _
          rintro ⟨d1x, d2x, hx, hr⟩
          cases hx
          omega
        · have hb : (d1 < 1 || 31 < d1 || d2 < 1 || 31 < d2) = false := by
            simp only [Bool.or_eq_false_iff, decide_eq_false_iff_not]
            tauto
          rw [hb]
          simp only [Bool.false_eq_true, if_false, Option.isSome_some, true_iff]
          refine ⟨hL, d1, d2, rfl, ?_⟩
          push_neg at hC
          omega
  · intro y m msg r h
    revert h
    unfold parseLocationAndDates
    rcases hD : dayPairOf msg with _ | ⟨d1, d2⟩
    · intro h
      cases h
    · dsimp only
      intro h
      split at h
      · cases h
      · split at h
        · cases h
        · cases h
          exact ⟨rfl, d1, d2, rfl, rfl, rfl⟩
  · intro y m
    rfl

/-- Witness for C7: the `restrepo` example instantiates the success-value
characterization. -/
theorem c7_witness :
    parseLocationAndDates 2026 9 msgRestrepo
        = some (LocDates.mk "restrepo".data (DateYMD.mk 2026 9 20) (DateYMD.mk 2026 9 22)) ∧
    ((LocDates.mk "restrepo".data (DateYMD.mk 2026 9 20) (DateYMD.mk 2026 9 22)).location
        = locationOf msgRestrepo ∧
      ∃ d1 d2, dayPairOf msgRestrepo = some (d1, d2) ∧
        (LocDates.mk "restrepo".data (DateYMD.mk 2026 9 20) (DateYMD.mk 2026 9 22)).fechaEntrada
            = ⟨2026, 9, d1⟩ ∧
        (LocDates.mk "restrepo".data (DateYMD.mk 2026 9 20) (DateYMD.mk 2026 9 22)).fechaSalida
            = ⟨2026, 9, d2 + 1⟩) :=
  ⟨rfl, (c7_location_dates_parse.2.1) 2026 9 msgRestrepo
    (LocDates.mk "restrepo".data (DateYMD.mk 2026 9 20) (DateYMD.mk 2026 9 22)) rfl⟩

/-- Counterexample for C4: with two catalogs both keyword-matching the
location, the store returns the first in creation order (order 5), not the
catalog with the lowest `order` (order 1) that the claim prescribes. -/
theorem c4_counterexample_creation_order_wins :
    getByLocationKeyword [catOrder5, catOrder1] "a b".data = some catOrder5 ∧
    keywordMatches (toLowerStr (jsTrim "a b".data)) catOrder1 = true ∧
    orderKey catOrder1 < orderKey catOrder5 := by
  refine ⟨by decide, by decide, by decide⟩

/-- C4 amended: catalog resolution is deterministic, but among
keyword-matching catalogs the first in the store's creation order wins (not
the lowest `order`); when no keyword matches, the first catalog flagged
default wins; with no default flag the lowest-`order` catalog overall wins;
the spec's two concrete examples hold as stated. -/
theorem c4_catalog_resolution :
    (∀ (cats : List CatalogRec) (loc : Str), toLowerStr (jsTrim loc) ≠ [] →
        getByLocationKeyword cats loc =
          (cats.filter (fun c => keywordMatches (toLowerStr (jsTrim loc)) c)).head?) ∧
    (∀ (cats : List CatalogRec) (loc : Str) (c : CatalogRec),
        getByLocationKeyword cats loc = none →
        getDefault cats = some c → resolveCatalogForLocation cats loc = some c) ∧
    (∀ (cats : List CatalogRec) (c : CatalogRec),
        (cats.filter (fun c => c.isDefault == some true)).head? = some c →
        getDefault cats = some c) ∧
    (∀ cats : List CatalogRec, (∀ c ∈ cats, c.isDefault ≠ some true) → cats ≠ [] →
        ∃ c, getDefault cats = some c ∧ c ∈ cats ∧ ∀ d ∈ cats, orderKey c ≤ orderKey d) ∧
    (resolveCatalogForLocation [catTolima, catBogota] "Ibagué, Tolima".data = some catTolima ∧
      resolveCatalogForLocation [catTolima, catBogota] "Girardot".data = some catBogota) := by
  refine ⟨?_, ?_, ?_, ?_, by decide, by decide⟩
  · intro cats loc hne
    unfold getByLocationKeyword
    rw [if_neg (by simpa using hne)]
    exact find?_eq_head?_filter _ cats
  · intro cats loc c hkw hdef
    unfold resolveCatalogForLocation
    rw [hkw, hdef]
  · intro cats c h
    unfold getDefault
    rw [find?_eq_head?_filter, h]
  · intro cats hnone hne
    have hfind : cats.find? (fun c => c.isDefault == some true) = none := by
      apply List.find?_eq_none.mpr
      intro x hx
      simpa using hnone x hx
    have hperm := List.perm_insertionSort orderLe cats
    have hlen : (sortByOrder cats).length = cats.length := hperm.length_eq
    have hsne : sortByOrder cats ≠ [] := by
      intro h0
      apply hne
      have : cats.length = 0 := by rw [← hlen, h0]; rfl
      exact List.length_eq_zero.mp this
    rcases hs : sortByOrder cats with _ | ⟨c, t⟩
    · exact absurd hs hsne
    · refine ⟨c, ?_, ?_, ?_⟩
      · unfold getDefault
        rw [hfind, hs]
        rfl
      · refine hperm.mem_iff.mp ?_
        show c ∈ sortByOrder cats
        rw [hs]
        exact List.mem_cons_self c t
      · intro d hd
        have hdmem : d ∈ c :: t := by
          rw [← hs]
          exact hperm.mem_iff.mpr hd
        rcases List.mem_cons.mp hdmem with rfl | hdt
        · exact le_refl _
        · have hsorted := List.sorted_insertionSort orderLe cats
          rw [show List.insertionSort orderLe cats = sortByOrder cats from rfl, hs] at hsorted
          exact (List.sorted_cons.mp hsorted).1 d hdt

/-- Witness for C4: the no-default store picks the lowest-order catalog. -/
theorem c4_witness :
    (∀ c ∈ [catPlain9, catPlain3], c.isDefault ≠ some true) ∧
    ([catPlain9, catPlain3] : List CatalogRec) ≠ [] ∧
    ∃ c, getDefault [catPlain9, catPlain3] = some c ∧ c ∈ [catPlain9, catPlain3] ∧
      ∀ d ∈ [catPlain9, catPlain3], orderKey c ≤ orderKey d :=
  ⟨by decide, by decide,
    c4_catalog_resolution.2.2.2.1 [catPlain9, catPlain3] (by decide) (by decide)⟩

/-- Filtering for a property after removing all its rows yields nothing. -/
theorem filter_after_remove (links : List CatLink) (pid : Nat) :
    ((links.filter (fun l => !(l.propertyId == pid))).filter
      (fun l => l.propertyId == pid)) = [] := by
  induction links with
  | nil => rfl
  | cons a t ih =>
    by_cases h : a.propertyId = pid
    · simp [List.filter_cons, h, ih]
    · simp [List.filter_cons, h, ih]

/-- C9: replacing a listing's links with the empty entry set, when the
listing has exactly two links whose catalog rows exist, deletes both local
rows (no links remain for the listing, all other listings' links are kept),
and schedules exactly one remote-delete job that issues two DELETE requests
for the two (catalog, productRetailerId) pairs, while scheduling zero remote
CREATE syncs. -/
theorem c9_replace_all_links_empty (st : CatalogStore) (pid now : Nat)
    (l1 l2 : CatLink) (c1 c2 : CatalogRec)
    (hlinks : st.links.filter (fun l => l.propertyId == pid) = [l1, l2])
    (hc1 : findCatalog st.catalogs l1.catalogId = some c1)
    (hc2 : findCatalog st.catalogs l2.catalogId = some c2) :
    ((setPropertyCatalogs st pid [] now).1.links.filter (fun l => l.propertyId == pid) = [] ∧
      ∀ l ∈ st.links, l.propertyId ≠ pid → l ∈ (setPropertyCatalogs st pid [] now).1.links) ∧
    (setPropertyCatalogs st pid [] now).2 =
      [MetaJob.deleteItems [(c1.whatsappCatalogId, l1.productRetailerId),
        (c2.whatsappCatalogId, l2.productRetailerId)]] ∧
    remoteDeleteRequests (setPropertyCatalogs st pid [] now).2 = 2 ∧
    remoteCreateRequests (setPropertyCatalogs st pid [] now).2 = 0 := by
  have hres : setPropertyCatalogs st pid [] now =
      ({ st with links := st.links.filter (fun l => !(l.propertyId == pid)) },
        [MetaJob.deleteItems [(c1.whatsappCatalogId, l1.productRetailerId),
          (c2.whatsappCatalogId, l2.productRetailerId)]]) := by
    unfold setPropertyCatalogs
    rw [hlinks]
    simp only [List.filterMap_cons, List.filterMap_nil, hc1, hc2, Option.map_some,
      List.foldl_nil, List.isEmpty_cons]
    rfl
  rw [hres]
  refine ⟨⟨?_, ?_⟩, rfl, rfl, rfl⟩
  · exact filter_after_remove st.links pid
  · intro l hl hne
    simp only [List.mem_filter]
    refine ⟨hl, ?_⟩
    simp [hne]

/-- Witness for C9: the two-link store loses both links and schedules two
remote deletes and zero creates. -/
theorem c9_witness :
    (storeTwoLinks.links.filter (fun l => l.propertyId == 7)
        = [⟨10, 7, 0, "r1".data, 1, 1⟩, ⟨11, 7, 1, "r2".data, 1, 1⟩]) ∧
    ((setPropertyCatalogs storeTwoLinks 7 [] 50).1.links.filter (fun l => l.propertyId == 7) = [] ∧
      ∀ l ∈ storeTwoLinks.links, l.propertyId ≠ 7 →
        l ∈ (setPropertyCatalogs storeTwoLinks 7 [] 50).1.links) ∧
    (setPropertyCatalogs storeTwoLinks 7 [] 50).2 =
      [MetaJob.deleteItems [("w1".data, "r1".data), ("w2".data, "r2".data)]] ∧
    remoteDeleteRequests (setPropertyCatalogs storeTwoLinks 7 [] 50).2 = 2 ∧
    remoteCreateRequests (setPropertyCatalogs storeTwoLinks 7 [] 50).2 = 0 :=
  ⟨by decide,
    c9_replace_all_links_empty storeTwoLinks 7 50
      ⟨10, 7, 0, "r1".data, 1, 1⟩ ⟨11, 7, 1, "r2".data, 1, 1⟩
      ⟨0, "C1".data, "w1".data, none, none, none⟩ ⟨1, "C2".data, "w2".data, none, none, none⟩
      (by decide) (by decide) (by decide)⟩

/-- Patching a conversation's status keeps the set of conversation ids. -/
theorem patchConvStatus_ids (db : DB) (cid : Nat) (st : ConvStatus) :
    (patchConvStatus db cid st).conversations.map (fun c => c.id)
      = db.conversations.map (fun c => c.id) := by
  unfold patchConvStatus
  have hgen : ∀ l : List Conversation,
      (l.map (fun c => if c.id == cid then { c with status := st } else c)).map (fun c => c.id)
        = l.map (fun c => c.id) := by
    intro l
    induction l with
    | nil => rfl
    | cons a t ih =>
      simp only [List.map_cons, ih]
      by_cases h : a.id = cid <;> simp [h]
  exact hgen db.conversations

/-- C5: for a contact with no active conversation but at least one resolved
one, `getOrCreateConversation` returns the most recent resolved
conversation's id with `isNew = false`, reactivates it to `ai`, creates no
conversation record, appends no message (in particular no welcome message),
and leaves every other conversation untouched. -/
theorem c5_resolved_conversation_reuse (db : DB) (contactId now : Nat) (r : Conversation)
    (hact : ∀ c ∈ db.conversations, c.contactId = contactId → isActiveStatus c.status = false)
    (hr : ((db.conversations.filter (fun c => c.contactId == contactId)).filter
        (fun c => c.status == ConvStatus.resolved)).getLast? = some r) :
    (getOrCreateConversation db contactId now).2.1 = r.id ∧
    (getOrCreateConversation db contactId now).2.2 = false ∧
    (getOrCreateConversation db contactId now).1.conversations.map (fun c => c.id)
        = db.conversations.map (fun c => c.id) ∧
    (getOrCreateConversation db contactId now).1.messages = db.messages ∧
    (∀ c ∈ (getOrCreateConversation db contactId now).1.conversations,
        c.id = r.id → c.status = .ai) ∧
    (∀ c ∈ db.conversations, c.id ≠ r.id →
        c ∈ (getOrCreateConversation db contactId now).1.conversations) := by
  have hfa : (convsByContactDesc db contactId).find? (fun c => isActiveStatus c.status) = none := by
    apply List.find?_eq_none.mpr
    intro x hx
    have hx1 : x ∈ db.conversations.filter (fun c => c.contactId == contactId) :=
      List.mem_reverse.mp hx
    have hx2 := List.mem_filter.mp hx1
    have hcid : x.contactId = contactId := by simpa using hx2.2
    simp [hact x hx2.1 hcid]
  have hfr : (convsByContactDesc db contactId).find?
      (fun c => c.status == ConvStatus.resolved) = some r := by
    rw [find?_eq_head?_filter]
    unfold convsByContactDesc
    rw [List.filter_reverse, List.head?_reverse]
    exact hr
  have hg : getOrCreateConversation db contactId now =
      (patchConvStatus db r.id ConvStatus.ai, r.id, false) := by
    unfold getOrCreateConversation
    dsimp only
    rw [hfa]
    dsimp only
    rw [hfr]
  rw [hg]
  refine ⟨rfl, rfl, patchConvStatus_ids db r.id ConvStatus.ai, rfl, ?_, ?_⟩
  · intro c hc hid
    obtain ⟨x, hx, hfx⟩ := List.mem_map.mp hc
    by_cases h : x.id = r.id
    · rw [← hfx]
      simp [h]
    · rw [← hfx] at hid
      simp [h] at hid
  · intro c hc hne
    refine List.mem_map.mpr ⟨c, hc, ?_⟩
    simp [hne]

/-- Witness for C5: the contact with two resolved conversations reuses the
most recent one (id 2) with no new record and no message appended. -/
theorem c5_witness :
    (getOrCreateConversation dbTwoResolved 0 50).2.1 = 2 ∧
    (getOrCreateConversation dbTwoResolved 0 50).2.2 = false ∧
    (getOrCreateConversation dbTwoResolved 0 50).1.conversations.map (fun c => c.id)
        = dbTwoResolved.conversations.map (fun c => c.id) ∧
    (getOrCreateConversation dbTwoResolved 0 50).1.messages = dbTwoResolved.messages := by
  obtain ⟨h1, h2, h3, h4, _, _⟩ := c5_resolved_conversation_reuse dbTwoResolved 0 50
    ⟨2, 0, "whatsapp".data, .resolved, 2, 2⟩ (by decide) (by decide)
  exact ⟨h1, h2, h3, h4⟩

/-- C3: processing an inbound message always persists the user's message
(whatever the conversation's status), and when the conversation's status —
re-read from the store after the user message was persisted — is not `ai`,
no outbound effect is produced, no further message (in particular no
assistant reply) is appended, and no error escapes. -/
theorem c3_status_gated_reply (env : ActionEnv) (db : DB) (args : InboundArgs) (now : Nat)
    (db1 : DB) (cid : Nat) (db2 : DB) (convId : Nat) (isNew : Bool)
    (h1 : getOrCreateContact db args.phone args.name now = (db1, cid))
    (h2 : getOrCreateConversation db1 cid now = (db2, convId, isNew)) :
    (Message.mk convId Sender.user args.text now
        ∈ (processInboundMessage env db args now).1.messages) ∧
    (∀ conv, conversationGetById (insertUserMessage db2 convId args.text now) convId = some conv →
        conv.status ≠ ConvStatus.ai →
        (processInboundMessage env db args now).2.1 = [] ∧
        (processInboundMessage env db args now).1.messages
            = (insertUserMessage db2 convId args.text now).messages ∧
        (processInboundMessage env db args now).2.2 = none) := by
  unfold processInboundMessage
  rw [h1]
  dsimp only
  rw [h2]
  dsimp only
  rcases hC : conversationGetById (insertUserMessage db2 convId args.text now) convId
    with _ | conv0
  · refine ⟨by simp [insertUserMessage], ?_⟩
    intro conv hcontra
    cases hcontra
  · dsimp only
    constructor
    · split
      · split
        · simp [insertUserMessage]
        · next res heq =>
          revert heq
          split
          · intro heq
            cases heq
            simp [updateLastMessageAt, insertUserMessage]
          · intro heq
            have hr := generateReply_ok_state env _ convId now res heq
            rw [hr]
            simp [updateLastMessageAt, insertAssistantMessage, insertUserMessage]
      · simp [updateLastMessageAt, insertUserMessage]
    · intro conv heq hne
      cases heq
      have hb : (conv0.status == ConvStatus.ai) = false := by
        simp only [beq_eq_false_iff_ne, ne_eq]
        exact hne
      rw [hb]
      simp [updateLastMessageAt]

/-- Witness for C3: with the conversation in state `human`, the user message
is persisted and nothing else happens. -/
theorem c3_witness :
    (Message.mk 1 Sender.user "hola".data 100
        ∈ (processInboundMessage envAllOk dbHumanConv argsHola 100).1.messages) ∧
    ((processInboundMessage envAllOk dbHumanConv argsHola 100).2.1 = [] ∧
      (processInboundMessage envAllOk dbHumanConv argsHola 100).1.messages
          = (insertUserMessage dbHumanConv 1 "hola".data 100).messages ∧
      (processInboundMessage envAllOk dbHumanConv argsHola 100).2.2 = none) := by
  have h := c3_status_gated_reply envAllOk dbHumanConv argsHola 100 dbHumanConv 0 dbHumanConv 1
    false (by decide) (by decide)
  exact ⟨h.1, h.2 ⟨1, 0, "whatsapp".data, .human, 1, 1⟩ (by decide) (by decide)⟩

/-- C1: delivering the same inbound-message event (with an explicit event
id) a second time is a no-op: whatever the first delivery did — recording
the fresh id and then failing at the dispatch's argument validation, being
skipped as a duplicate, or being silently ignored — the second delivery
leaves the store exactly as the first left it, emits no outbound effect, and
returns the 200 acknowledgement: processing twice with the same event id has
the same effect on conversations and replies as processing once. -/
theorem c1_event_dedup_idempotent (env1 env2 : ActionEnv) (db : DB) (now1 now2 : Nat)
    (b : WebhookBody) (out1 : DB × List Effect × Except Str HttpResponse)
    (hT : b.eventType = some "whatsapp.inbound_message.received".data)
    (hId : b.eventId.isSome = true)
    (h1 : webhookPost env1 db (some b) now1 = out1) :
    webhookPost env2 out1.1 (some b) now2 = (out1.1, [], .ok ⟨200, .okAck now2⟩) := by
  obtain ⟨eid, heid⟩ := Option.isSome_iff_exists.mp hId
  rw [webhookPost_inbound_shape env1 db now1 b hT] at h1
  have hout1 : out1.1 = (webhookInboundStep env1 db b now1).1 := by
    rw [← h1]
  rcases hin : b.inbound with _ | evt
  · have hs2 : webhookInboundStep env2 out1.1 b now2 = (out1.1, [], none) := by
      simp [webhookInboundStep, hin]
    rw [webhookPost_inbound_shape env2 out1.1 now2 b hT, hs2]
  · have hs1 := webhookInboundStep_inbound env1 db now1 b evt eid hT hin heid
    have hs2gen := webhookInboundStep_inbound env2 out1.1 now2 b evt eid hT hin heid
    by_cases hg : (!(evt.fromPhone.getD [] == []) &&
        (!((deriveContent evt).1 == []) || !((deriveContent evt).2 == []))) = true
    · rw [if_pos hg] at hs1 hs2gen
      by_cases hc : db.processedEvents.contains eid = true
      · rw [if_pos hc] at hs1
        have hout : out1.1 = db := by rw [hout1, hs1]
        have hc2 : out1.1.processedEvents.contains eid = true := by
          rw [hout]
          exact hc
        rw [if_pos hc2] at hs2gen
        rw [webhookPost_inbound_shape env2 out1.1 now2 b hT, hs2gen]
      · rw [if_neg hc] at hs1
        have hpe : out1.1.processedEvents = db.processedEvents ++ [eid] := by
          rw [hout1, hs1]
        have hc2 : out1.1.processedEvents.contains eid = true := by
          rw [hpe]
          exact contains_append_one db.processedEvents eid
        rw [if_pos hc2] at hs2gen
        rw [webhookPost_inbound_shape env2 out1.1 now2 b hT, hs2gen]
    · rw [if_neg hg] at hs1 hs2gen
      rw [webhookPost_inbound_shape env2 out1.1 now2 b hT, hs2gen]

/-- Witness for C1: after a first delivery of the `hola` event from the empty
store, a second delivery of the same body (under an environment whose
generation call would now throw) changes nothing and acknowledges with
200. -/
theorem c1_witness :
    webhookPost envGenThrows (webhookPost envAllOk dbEmpty (some bodyHola) 100).1
        (some bodyHola) 200
      = ((webhookPost envAllOk dbEmpty (some bodyHola) 100).1, [],
          .ok ⟨200, RespBody.okAck 200⟩) :=
  c1_event_dedup_idempotent envAllOk envGenThrows dbEmpty 100 200 bodyHola
    (webhookPost envAllOk dbEmpty (some bodyHola) 100) rfl rfl rfl

end FY
